import Mathlib

/-!
Verification of the hrsleep-bench micro-benchmark (src/main.rs) against its
natural-language specification.

The program is shallowly embedded as follows.

* File contents are modelled as `List Char` (sysfs files hold short ASCII
  text); the relevant `str` operations of the source (`trim`,
  `parse::<u32>`, `u32::to_string`, `eq_ignore_ascii_case`,
  `split(" ")`) are given as executable char-level functions
  (`trimChars`, `parseU32`, `natChars`, `eqIgnoreAsciiCase`,
  `splitOnSpace`).
* The sysfs surface touched by the program is a record `FS`: per-core
  topology existence, the contents (or unreadability) of
  `scaling_driver`, `scaling_governor`, `scaling_setspeed`,
  `scaling_available_frequencies`, and a writability flag for the two
  writable files.  Reads return the current content; a successful write
  replaces it.  Failure modes are constant for the duration of one run,
  matching the spec's assumption of no concurrent external mutation.
* A terminated computation is a `ProcOut`: normal value, `fatal`
  (a Rust `panic` via `.expect`), or `exit` (a `std::process::exit`).
* Machine integers are `Nat` with explicit wrap-around (`% 2^32`,
  `% 2^64`) exactly where the u32/u64 arithmetic of the source can
  overflow (release-build wrapping semantics).
* The hardware cycle counter `_rdtsc` is an oracle `tsc : Nat → Nat`
  giving the value returned by its n-th invocation.
* Observable behaviour of `main` is collected in a `RunResult`: the final
  `FS`, traces of file reads/writes and of the bind/benchmark step for
  each phase, the stderr diagnostics, the `setup_succ` flag and the two
  saved ("old") values.  The f64 statistics of the reporting code are
  idealized as exact rationals (`ℚ`) in `reported_mean`/`reported_p99`;
  the integer parts (u64 sum with wrap, sorted-index selection) are
  modelled exactly.
-/

/-- Result of running a piece of the program: a normal value, a Rust
panic raised by `.expect` (message attached), or `std::process::exit`. -/
inductive ProcOut (α : Type) where
  | ok (a : α)
  | fatal (msg : String)
  | exit (code : Nat)
deriving DecidableEq, Repr

/-- Observable actions on the sysfs files plus the bind/benchmark steps,
in program order. -/
inductive FsAction where
  | readDriver
  | readAvail
  | readGov
  | readSpeed
  | writeGov (v : List Char)
  | writeSpeed (v : Nat)
  | bindCore (core : Nat)
  | bench
deriving DecidableEq, Repr

/-- `true` exactly for the write actions (governor / setspeed). -/
def isWriteAction : FsAction → Bool
  | FsAction.writeGov _ => true
  | FsAction.writeSpeed _ => true
  | _ => false

deriving instance DecidableEq for Except

/-- The sysfs state for the one core the program works on.  Contents are
`Except Unit (List Char)`: `error` means the file cannot be read.  The
two writable files additionally carry a writability flag (a failing
write leaves the content unchanged). -/
structure FS where
  topologyExists : Bool
  scaling_driver : Except Unit (List Char)
  scaling_governor : Except Unit (List Char)
  governorWritable : Bool
  scaling_setspeed : Except Unit (List Char)
  setspeedWritable : Bool
  scaling_available_frequencies : Except Unit (List Char)
deriving DecidableEq, Repr, Inhabited

def U32_MOD : Nat := 4294967296
def U32_MAX : Nat := 4294967295
def U64_MOD : Nat := 18446744073709551616

/-- Wrapping u32 subtraction (release semantics of `a - b` on `u32`),
for `a b < 2^32`. -/
def u32_sub_wrap (a b : Nat) : Nat := (a + U32_MOD - b) % U32_MOD

/-- Wrapping u64 subtraction (release semantics of `a - b` on `u64`). -/
def u64_sub_wrap (a b : Nat) : Nat := (a % U64_MOD + U64_MOD - b % U64_MOD) % U64_MOD

/-- ASCII whitespace recognised by the model of `str::trim` (sysfs
content is ASCII). -/
def isAsciiWs (c : Char) : Bool := c = ' ' || c = '\t' || c = '\n' || c = '\r'

/-- Model of `str::trim`: drop whitespace from both ends. -/
def trimChars (l : List Char) : List Char :=
  ((l.dropWhile isAsciiWs).reverse.dropWhile isAsciiWs).reverse

/-- Model of `str::eq_ignore_ascii_case` (`Char.toLower` lowercases
exactly the ASCII uppercase letters). -/
def eqIgnoreAsciiCase (a b : List Char) : Bool :=
  a.map Char.toLower == b.map Char.toLower

/-- Model of `str::split(" ")`: split at every single space, keeping
empty pieces. -/
def splitOnSpace : List Char → List (List Char)
  | [] => [[]]
  | c :: rest =>
    if c = ' ' then [] :: splitOnSpace rest
    else
      match splitOnSpace rest with
      | [] => [[c]]
      | t :: ts => (c :: t) :: ts

/-- Decimal value of a digit string (helper of the `u32` parser). -/
def digitsVal (l : List Char) : Nat := l.foldl (fun a c => 10 * a + (c.toNat - 48)) 0

/-- Digits-only body of the `u32` parser: nonempty, all ASCII digits,
value within `u32` range (overflow is a parse error in Rust). -/
def parseU32Core (l : List Char) : Option Nat :=
  if l.isEmpty then none
  else if l.all Char.isDigit then
    if digitsVal l ≤ U32_MAX then some (digitsVal l) else none
  else none

/-- Model of `str::parse::<u32>`: an optional leading `+`, then decimal
digits, rejecting anything else and values above `u32::MAX`. -/
def parseU32 (l : List Char) : Option Nat :=
  match l with
  | c :: rest => if c = '+' then parseU32Core rest else parseU32Core l
  | [] => parseU32Core l

/-- Recursion core of the decimal renderer, structural on a fuel bound
(`fuel > n` always holds at the call sites, so the `[]` branch is
unreachable); kept structural so that concrete runs evaluate in the
kernel. -/
def natCharsAux : Nat → Nat → List Char
  | 0, _ => []
  | fuel + 1, n =>
    if n < 10 then [Nat.digitChar n]
    else natCharsAux fuel (n / 10) ++ [Nat.digitChar (n % 10)]

/-- Model of `u32::to_string`: most-significant-first decimal digits. -/
def natChars (n : Nat) : List Char := natCharsAux (n + 1) n

/-- Result of one operation of the Power-State Controller / Prober:
`main.rs` line references are given on each definition. -/
structure RunResult where
  fs : FS
  setupTrace : List FsAction
  benchTrace : List FsAction
  teardownTrace : List FsAction
  stderr : List String
  setup_succ : Bool
  old_governor : Option (List Char)
  old_cpufreq : Option Nat
  benchRan : Bool
deriving DecidableEq, Repr, Inhabited

/-- `core_available` (main.rs 143-149): existence of the core's
`topology` directory; the core id only selects the per-core `FS`. -/
def core_available (fs : FS) (_core : Nat) : Bool := fs.topologyExists

/-- `acpi_avaiable` (main.rs 161-171, source spelling kept): reads
`scaling_driver` (panicking via `.expect` if unreadable) and compares
the trimmed content case-insensitively with `"acpi-cpufreq"`. -/
def acpi_avaiable (fs : FS) : ProcOut (Bool × List FsAction) :=
  match fs.scaling_driver with
  | Except.error _ => ProcOut.fatal "Failed to open scaling_driver"
  | Except.ok s =>
    ProcOut.ok (eqIgnoreAsciiCase (trimChars s) ("acpi-cpufreq".toList), [FsAction.readDriver])

/-- `acpi_set_governor` (main.rs 173-192): reads `scaling_governor`
(`.expect` panic on failure), writes the new value (`.expect` panic on
failure), and returns `Some` of the trimmed previous content. -/
def acpi_set_governor (fs : FS) (new_governor : List Char) :
    ProcOut (FS × Option (List Char) × List FsAction) :=
  match fs.scaling_governor with
  | Except.error _ => ProcOut.fatal "Failed to open scaling_governor"
  | Except.ok content =>
    let old_governor := trimChars content
    if fs.governorWritable then
      ProcOut.ok ({ fs with scaling_governor := Except.ok new_governor },
        some old_governor, [FsAction.readGov, FsAction.writeGov new_governor])
    else ProcOut.fatal "Failed to write scaling_governor"

/-- `acpi_set_freq` (main.rs 194-228): reads `scaling_setspeed`
(diagnostic and `None` on failure), parses it as `u32` (diagnostic and
`None` on failure), writes the new value rendered in decimal
(diagnostic and `None` on write failure), returning `Some` of the old
value; it never panics. -/
def acpi_set_freq (fs : FS) (new_freq : Nat) :
    FS × Option Nat × List FsAction × List String :=
  match fs.scaling_setspeed with
  | Except.error _ => (fs, none, [FsAction.readSpeed], ["Failed to open scaling_setspeed"])
  | Except.ok content =>
    match parseU32 (trimChars content) with
    | none => (fs, none, [FsAction.readSpeed], ["Failed to parse scaling_setspeed"])
    | some old_freq =>
      if fs.setspeedWritable then
        ({ fs with scaling_setspeed := Except.ok (natChars new_freq) },
          some old_freq, [FsAction.readSpeed, FsAction.writeSpeed new_freq], [])
      else
        (fs, none, [FsAction.readSpeed, FsAction.writeSpeed new_freq],
          ["Failed to write scaling_setspeed"])

/-- First-error-wins elementwise parse, the behaviour of the
`map(...).collect()` whose closure calls `process::exit(1)` on the
first invalid token (main.rs 248-258). -/
def mapExcept (f : α → Except ε β) : List α → Except ε (List β)
  | [] => Except.ok []
  | a :: as_ =>
    match f a with
    | Except.error e => Except.error e
    | Except.ok b =>
      match mapExcept f as_ with
      | Except.error e => Except.error e
      | Except.ok bs => Except.ok (b :: bs)

/-- Tokenisation and parsing of `scaling_available_frequencies`
(main.rs 239-258): split on single spaces, drop whitespace-only
tokens, parse each as `u32`; the first bad token is a fatal
environment fault (`process::exit(1)` in the source). -/
def parse_freq_list (raw : List Char) : Except (List Char) (List Nat) :=
  let tokens := (splitOnSpace raw).filter (fun s => !(trimChars s).isEmpty)
  mapExcept (fun s =>
    match parseU32 (trimChars s) with
    | some n => Except.ok n
    | none => Except.error s) tokens

/-- The scan loop of `cpufreq_available` (main.rs 260-278).  `prev` is
`freqs[i-1]` (`none` at index 0).  Returns (accepted, diagnostics,
underflow), where the third component records whether the u32
subtraction `available_freq - 1000` was executed with
`available_freq < 1000` (i.e. mathematically underflowed). -/
def cpufreq_scan (freq : Nat) : Option Nat → List Nat → Bool × List String × Bool
  | _, [] => (false, ["The frequency " ++ toString freq ++ " is not available"], false)
  | prev, f :: rest =>
    if f = freq then
      match prev with
      | none => (true, [], false)
      | some p =>
        if u32_sub_wrap f 1000 = p then
          (false,
            ["The frequency " ++ toString freq ++
              " is not available, using the closest one " ++ toString p],
            decide (f < 1000))
        else (true, [], decide (f < 1000))
    else cpufreq_scan freq (some f) rest

/-- `cpufreq_available` (main.rs 230-282): read the available-frequency
list (`.expect` panic if unreadable), parse it (`exit(1)` on a bad
token), then scan for `freq`. -/
def cpufreq_available (fs : FS) (freq : Nat) :
    ProcOut ((Bool × List String × Bool) × List FsAction) :=
  match fs.scaling_available_frequencies with
  | Except.error _ => ProcOut.fatal "Failed to open scaling_available_frequencies"
  | Except.ok raw =>
    match parse_freq_list raw with
    | Except.error _ => ProcOut.exit 1
    | Except.ok freqs => ProcOut.ok (cpufreq_scan freq none freqs, [FsAction.readAvail])

/-- The governor/frequency acquisition stages of `main` (main.rs 54-66):
each stage runs only if `setup_succ` still holds; a `None` result flips
the flag.  Returns final fs, `old_governor`, `old_cpufreq`, the flag,
trace and stderr. -/
def mainSetupControl (fs : FS) (reqFreq : Nat) (setup_succ : Bool) :
    ProcOut (FS × Option (List Char) × Option Nat × Bool × List FsAction × List String) :=
  if setup_succ then
    match acpi_set_governor fs ("userspace".toList) with
    | ProcOut.fatal m => ProcOut.fatal m
    | ProcOut.exit n => ProcOut.exit n
    | ProcOut.ok (fs1, old_governor, t1) =>
      let succ1 := if old_governor.isNone then false else setup_succ
      if succ1 then
        match acpi_set_freq fs1 reqFreq with
        | (fs2, old_cpufreq, t2, e2) =>
          let succ2 := if old_cpufreq.isNone then false else succ1
          ProcOut.ok (fs2, old_governor, old_cpufreq, succ2, t1 ++ t2, e2)
      else ProcOut.ok (fs1, old_governor, none, succ1, t1, [])
  else ProcOut.ok (fs, none, none, setup_succ, [], [])

/-- The benchmark block of `main` (main.rs 68-126): `bind_core` is
attempted once; on success the sampling/reporting loop body runs (it
touches no sysfs file), on failure it is skipped.  The bind outcome is
an input (`pthread_setaffinity_np` is outside the model). -/
def benchPhase (core : Nat) (bindOk : Bool) : Bool × List FsAction :=
  if bindOk then (true, [FsAction.bindCore core, FsAction.bench])
  else (false, [FsAction.bindCore core])

/-- The teardown of `main` (main.rs 128-134): restore the saved
frequency (if captured), then the saved governor (if captured); the
result of the frequency restore is discarded. -/
def teardownPhase (fs : FS) (old_cpufreq : Option Nat) (old_governor : Option (List Char)) :
    ProcOut (FS × List FsAction × List String) :=
  let step1 :=
    match old_cpufreq with
    | some old_freq =>
      match acpi_set_freq fs old_freq with
      | (fs1, _, t, e) => (fs1, t, e)
    | none => (fs, ([] : List FsAction), ([] : List String))
  match step1 with
  | (fs1, t1, e1) =>
    match old_governor with
    | some g =>
      match acpi_set_governor fs1 g with
      | ProcOut.fatal m => ProcOut.fatal m
      | ProcOut.exit n => ProcOut.exit n
      | ProcOut.ok (fs2, _, t2) => ProcOut.ok (fs2, t1 ++ t2, e1)
    | none => ProcOut.ok (fs1, t1, e1)

/-- `setup_succ` after the core-existence stage (main.rs 37-40): the
initial value is `true`, and `!core_available(..) && setup_succ` flips
it. -/
def gate1 (coreOk : Bool) : Bool := if !coreOk && true then false else true

/-- `setup_succ` after the driver stage (main.rs 42-48). -/
def gate2 (coreOk driverOk : Bool) : Bool :=
  if !driverOk && gate1 coreOk then false else gate1 coreOk

/-- `setup_succ` after the frequency-availability stage (main.rs 50-52). -/
def gate3 (coreOk driverOk freqOk : Bool) : Bool :=
  if !freqOk && gate2 coreOk driverOk then false else gate2 coreOk driverOk

/-- `main` (main.rs 30-140).  Note the gating of the three prober
stages: the source writes `if !check(...) && setup_succ { ... }`, so
each check itself is evaluated unconditionally (left operand of `&&`)
and only the flag update and diagnostic are gated (`gate1`-`gate3`).
The requested frequency is `arg.freq * 1000` in wrapping u32
arithmetic. -/
def mainRun (core freqMHz : Nat) (fs0 : FS) (bindOk : Bool) : ProcOut RunResult :=
  let reqFreq := (freqMHz * 1000) % U32_MOD
  let coreOk := core_available fs0 core
  let err1 : List String :=
    if !coreOk && true then ["The core " ++ toString core ++ " is not available"] else []
  match acpi_avaiable fs0 with
  | ProcOut.fatal m => ProcOut.fatal m
  | ProcOut.exit n => ProcOut.exit n
  | ProcOut.ok (driverOk, tA) =>
    let err2 : List String :=
      if !driverOk && gate1 coreOk then
        ["The scaling driver of core " ++ toString core ++ " is not acpi-cpufreq"]
      else []
    match cpufreq_available fs0 reqFreq with
    | ProcOut.fatal m => ProcOut.fatal m
    | ProcOut.exit n => ProcOut.exit n
    | ProcOut.ok ((freqOk, diags, _underflow), tB) =>
      match mainSetupControl fs0 reqFreq (gate3 coreOk driverOk freqOk) with
      | ProcOut.fatal m => ProcOut.fatal m
      | ProcOut.exit n => ProcOut.exit n
      | ProcOut.ok (fs1, old_governor, old_cpufreq, succ5, tC, eC) =>
        let bd := if succ5 then benchPhase core bindOk else (false, [])
        match teardownPhase fs1 old_cpufreq old_governor with
        | ProcOut.fatal m => ProcOut.fatal m
        | ProcOut.exit n => ProcOut.exit n
        | ProcOut.ok (fs2, tE, eE) =>
          let tail : List String :=
            if !succ5 then ["Failed to setup the benchmark", "Exiting..."] else []
          ProcOut.ok
            { fs := fs2
              setupTrace := tA ++ tB ++ tC
              benchTrace := bd.2
              teardownTrace := tE
              stderr := err1 ++ err2 ++ diags ++ eC ++ eE ++ tail
              setup_succ := succ5
              old_governor := old_governor
              old_cpufreq := old_cpufreq
              benchRan := bd.1 }

def NUM_ITERATIONS : Nat := 10000

/-- `hr_sleep_bench` (main.rs 284-295): 10,000 iterations, each
recording the wrapping u64 difference of two consecutive `_rdtsc`
reads around the (opaque) sleep call, then `Vec::sort` ascending
before returning.  `tsc k` is the value of the k-th `_rdtsc`
invocation; the duration argument only feeds the opaque sleep. -/
def hr_sleep_bench (_micro : Nat) (tsc : Nat → Nat) : List Nat :=
  (((List.range NUM_ITERATIONS).map
    (fun i => u64_sub_wrap (tsc (2 * i + 1)) (tsc (2 * i)))).mergeSort (fun a b => a ≤ b))

/-- `nano_sleep_bench` (main.rs 297-308): identical sampling structure
with the other sleep primitive. -/
def nano_sleep_bench (_micro : Nat) (tsc : Nat → Nat) : List Nat :=
  (((List.range NUM_ITERATIONS).map
    (fun i => u64_sub_wrap (tsc (2 * i + 1)) (tsc (2 * i)))).mergeSort (fun a b => a ≤ b))

/-- The percentile index of the reducer (main.rs 98/102):
`len * 99 / 100` in integer division. -/
def percentile_index (len : Nat) : Nat := len * 99 / 100

/-- Raw 99th-percentile selection of the reducer (main.rs 98/102),
before the f64 unit conversion: the element of the (sorted) sample
vector at `percentile_index`. -/
def percentile99_raw (samples : List Nat) : Option Nat :=
  samples[percentile_index samples.length]?

/-- `iter().sum::<u64>()` of the reducer (main.rs 95/99): u64 addition
wraps at each step (release semantics). -/
def wrappedSum (samples : List Nat) : Nat :=
  samples.foldl (fun a x => (a + x) % U64_MOD) 0

/-- Reported mean (main.rs 95-96/99-100) with the f64 arithmetic
idealized as exact rationals: wrapped u64 sum divided by
`len * tsc_per_micro`. -/
def reported_mean (samples : List Nat) (tsc_per_micro : ℚ) : ℚ :=
  (wrappedSum samples : ℚ) / (samples.length * tsc_per_micro)

/-- Reported 99th percentile (main.rs 97-98/101-102) with the f64
division idealized as exact rationals. -/
def reported_p99 (samples : List Nat) (tsc_per_micro : ℚ) : Option ℚ :=
  Option.map (fun v : Nat => (v : ℚ) / tsc_per_micro) (percentile99_raw samples)

theorem digitChar_isDigit : ∀ d, d < 10 → (Nat.digitChar d).isDigit = true := by decide

theorem digitChar_val : ∀ d, d < 10 → (Nat.digitChar d).toNat - 48 = d := by decide

theorem digitsVal_append (l : List Char) (c : Char) :
    digitsVal (l ++ [c]) = 10 * digitsVal l + (c.toNat - 48) := by
  simp [digitsVal, List.foldl_append]

theorem natCharsAux_spec : ∀ (fuel n : Nat), n < fuel →
    natCharsAux fuel n ≠ [] ∧ (∀ c ∈ natCharsAux fuel n, c.isDigit = true) ∧
    digitsVal (natCharsAux fuel n) = n := by
  intro fuel
  induction fuel with
  | zero => intro n h; omega
  | succ f ih =>
    intro n h
    simp only [natCharsAux]
    by_cases h10 : n < 10
    · simp only [if_pos h10]
      refine ⟨by simp, ?_, ?_⟩
      · intro c hc
        simp only [List.mem_singleton] at hc
        subst hc
        exact digitChar_isDigit n h10
      · simp [digitsVal, digitChar_val n h10]
    · have hf : n / 10 < f := by
        have := Nat.div_lt_self (n := n) (by omega) (by omega : 1 < 10)
        omega
      obtain ⟨h1, h2, h3⟩ := ih (n / 10) hf
      have hm : n % 10 < 10 := Nat.mod_lt n (by omega)
      simp only [if_neg h10]
      refine ⟨by simp, ?_, ?_⟩
      · intro c hc
        rcases List.mem_append.mp hc with hc | hc
        · exact h2 c hc
        · simp only [List.mem_singleton] at hc
          subst hc
          exact digitChar_isDigit _ hm
      · rw [digitsVal_append, h3, digitChar_val _ hm]
        omega

theorem natChars_spec (n : Nat) :
    natChars n ≠ [] ∧ (∀ c ∈ natChars n, c.isDigit = true) ∧ digitsVal (natChars n) = n :=
  natCharsAux_spec (n + 1) n (by omega)

theorem parseU32_natChars (n : Nat) (h : n ≤ U32_MAX) :
    parseU32 (natChars n) = some n := by
  obtain ⟨h1, h2, h3⟩ := natChars_spec n
  rcases hl : natChars n with _ | ⟨c, cs⟩
  · exact absurd hl h1
  · rw [hl] at h2 h3
    have hc : c.isDigit = true := h2 c (by simp)
    have hplus : ¬(c = '+') := by
      intro he
      subst he
      exact absurd hc (by decide)
    have hall : (c :: cs).all Char.isDigit = true := by
      rw [List.all_eq_true]
      exact fun x hx => h2 x hx
    simp only [parseU32, if_neg hplus, parseU32Core, List.isEmpty_cons, hall,
      Bool.false_eq_true, if_false, if_true, h3]
    rw [if_pos h]

theorem dropWhile_eq_self_of_not (p : Char → Bool) (l : List Char)
    (h : ∀ c ∈ l, p c = false) : l.dropWhile p = l := by
  cases l with
  | nil => rfl
  | cons c cs => simp [List.dropWhile_cons, h c (by simp)]

theorem trimChars_of_not_ws (l : List Char) (h : ∀ c ∈ l, isAsciiWs c = false) :
    trimChars l = l := by
  unfold trimChars
  rw [dropWhile_eq_self_of_not _ _ h,
    dropWhile_eq_self_of_not _ _ (fun c hc => h c (List.mem_reverse.mp hc)),
    List.reverse_reverse]

theorem digit_not_ws (c : Char) (h : c.isDigit = true) : isAsciiWs c = false := by
  cases hws : isAsciiWs c
  · rfl
  · exfalso
    simp only [isAsciiWs, Bool.or_eq_true, decide_eq_true_eq] at hws
    rcases hws with ((h' | h') | h') | h' <;> (subst h'; exact absurd h (by decide))

theorem parseU32_trim_natChars (n : Nat) (h : n ≤ U32_MAX) :
    parseU32 (trimChars (natChars n)) = some n := by
  rw [trimChars_of_not_ws _ (fun c hc => digit_not_ws c ((natChars_spec n).2.1 c hc))]
  exact parseU32_natChars n h

/-- The `prev` value after the scan has consumed the list `l`. -/
def lastOpt : List Nat → Option Nat → Option Nat
  | [], prev => prev
  | c :: l, _ => lastOpt l (some c)

theorem lastOpt_append_singleton (l : List Nat) (a : Nat) (prev : Option Nat) :
    lastOpt (l ++ [a]) prev = some a := by
  induction l generalizing prev with
  | nil => rfl
  | cons c l ih => exact ih (some c)

theorem cpufreq_scan_skip (freq : Nat) (l m : List Nat) (prev : Option Nat)
    (h : ∀ x ∈ l, x ≠ freq) :
    cpufreq_scan freq prev (l ++ m) = cpufreq_scan freq (lastOpt l prev) m := by
  induction l generalizing prev with
  | nil => rfl
  | cons c l ih =>
    have hc : ¬(c = freq) := h c (by simp)
    simp only [List.cons_append, cpufreq_scan, if_neg hc, lastOpt]
    exact ih (some c) (fun x hx => h x (by simp [hx]))

theorem mapExcept_ok_forall {f : α → Except ε β} {l : List α} {bs : List β}
    (h : mapExcept f l = Except.ok bs) :
    ∀ b ∈ bs, ∃ a ∈ l, f a = Except.ok b := by
  induction l generalizing bs with
  | nil =>
    simp only [mapExcept] at h
    cases h
    simp
  | cons a as ih =>
    simp only [mapExcept] at h
    rcases hfa : f a with e | b₀ <;> rw [hfa] at h
    · cases h
    · rcases hrest : mapExcept f as with e | bs₀ <;> rw [hrest] at h
      · cases h
      · cases h
        intro b hb
        rcases List.mem_cons.mp hb with hb | hb
        · exact ⟨a, by simp, by rw [hfa, hb]⟩
        · obtain ⟨a', ha', hfa'⟩ := ih hrest b hb
          exact ⟨a', by simp [ha'], hfa'⟩

theorem parseU32_le_max {l : List Char} {n : Nat} (h : parseU32 l = some n) : n ≤ U32_MAX := by
  have core : ∀ l' : List Char, parseU32Core l' = some n → n ≤ U32_MAX := by
    intro l' h'
    unfold parseU32Core at h'
    split at h'
    · cases h'
    · split at h'
      · split at h'
        · cases h'
          assumption
        · cases h'
      · cases h'
  unfold parseU32 at h
  split at h
  · split at h
    · exact core _ h
    · exact core _ h
  · exact core _ h

theorem parse_freq_list_le_max {raw : List Char} {freqs : List Nat}
    (h : parse_freq_list raw = Except.ok freqs) : ∀ x ∈ freqs, x ≤ U32_MAX := by
  intro x hx
  obtain ⟨t, _, hft⟩ := mapExcept_ok_forall h x hx
  rcases hp : parseU32 (trimChars t) with _ | n <;> rw [hp] at hft
  · cases hft
  · cases hft
    exact parseU32_le_max hp

theorem wrappedSum_eq (l : List Nat) : wrappedSum l = l.sum % U64_MOD := by
  have aux : ∀ (l : List Nat) (a : Nat),
      l.foldl (fun a x => (a + x) % U64_MOD) (a % U64_MOD) = (a + l.sum) % U64_MOD := by
    intro l
    induction l with
    | nil => intro a; simp
    | cons x xs ih =>
      intro a
      simp only [List.foldl_cons, List.sum_cons]
      rw [Nat.mod_add_mod, ih (a + x)]
      ring_nf
  have := aux l 0
  simpa [wrappedSum] using this


theorem acpi_set_governor_run {fs : FS} {ng c : List Char}
    (hc : fs.scaling_governor = Except.ok c) (hw : fs.governorWritable = true) :
    acpi_set_governor fs ng =
      ProcOut.ok ({ fs with scaling_governor := Except.ok ng }, some (trimChars c),
        [FsAction.readGov, FsAction.writeGov ng]) := by
  unfold acpi_set_governor
  rw [hc]
  simp [hw]

theorem acpi_set_freq_run {fs : FS} (nf : Nat) {c : List Char} {v : Nat}
    (hc : fs.scaling_setspeed = Except.ok c)
    (hp : parseU32 (trimChars c) = some v) (hw : fs.setspeedWritable = true) :
    acpi_set_freq fs nf =
      ({ fs with scaling_setspeed := Except.ok (natChars nf) }, some v,
        [FsAction.readSpeed, FsAction.writeSpeed nf], []) := by
  unfold acpi_set_freq
  rw [hc]
  simp [hp, hw]

theorem acpi_set_governor_inv {fs : FS} {ng : List Char} {fs' : FS}
    {og : Option (List Char)} {t : List FsAction}
    (h : acpi_set_governor fs ng = ProcOut.ok (fs', og, t)) :
    fs' = { fs with scaling_governor := Except.ok ng } ∧ fs.governorWritable = true ∧
      (∃ c, fs.scaling_governor = Except.ok c ∧ og = some (trimChars c)) ∧
      t = [FsAction.readGov, FsAction.writeGov ng] := by
  unfold acpi_set_governor at h
  split at h
  · cases h
  · next content heq =>
    split at h
    · next hw =>
      simp only [ProcOut.ok.injEq, Prod.mk.injEq] at h
      obtain ⟨h1, h2, h3⟩ := h
      exact ⟨h1.symm, hw, ⟨content, heq, h2.symm⟩, h3.symm⟩
    · cases h

theorem acpi_set_freq_inv {fs : FS} {nf : Nat} {fs' : FS}
    {of : Option Nat} {t : List FsAction} {e : List String}
    (h : acpi_set_freq fs nf = (fs', of, t, e)) :
    (of = none → fs' = fs) ∧
    (∀ v, of = some v →
      fs' = { fs with scaling_setspeed := Except.ok (natChars nf) } ∧
      fs.setspeedWritable = true ∧
      (∃ c, fs.scaling_setspeed = Except.ok c ∧ parseU32 (trimChars c) = some v) ∧
      t = [FsAction.readSpeed, FsAction.writeSpeed nf] ∧ e = []) := by
  unfold acpi_set_freq at h
  split at h
  · simp only [Prod.mk.injEq] at h
    obtain ⟨h1, h2, h3, h4⟩ := h
    subst h1; subst h2
    exact ⟨fun _ => rfl, by simp⟩
  · next content heq =>
    split at h
    · simp only [Prod.mk.injEq] at h
      obtain ⟨h1, h2, h3, h4⟩ := h
      subst h1; subst h2
      exact ⟨fun _ => rfl, by simp⟩
    · next old_freq hp =>
      split at h
      · next hw =>
        simp only [Prod.mk.injEq] at h
        obtain ⟨h1, h2, h3, h4⟩ := h
        subst h1; subst h2
        refine ⟨by simp, ?_⟩
        intro v hv
        cases hv
        exact ⟨rfl, hw, ⟨content, heq, hp⟩, h3.symm, h4.symm⟩
      · simp only [Prod.mk.injEq] at h
        obtain ⟨h1, h2, h3, h4⟩ := h
        subst h1; subst h2
        exact ⟨fun _ => rfl, by simp⟩

theorem mainSetupControl_inv {fs : FS} {req : Nat} {s : Bool}
    {fs1 : FS} {og : Option (List Char)} {of : Option Nat} {s' : Bool}
    {t : List FsAction} {e : List String}
    (h : mainSetupControl fs req s = ProcOut.ok (fs1, og, of, s', t, e)) :
    (og = none → fs1 = fs ∧ of = none) ∧
    (∀ g, og = some g →
      fs1.scaling_governor = Except.ok ("userspace".toList) ∧ fs1.governorWritable = true) ∧
    (∀ v, of = some v →
      fs1.scaling_setspeed = Except.ok (natChars req) ∧ fs1.setspeedWritable = true) := by
  unfold mainSetupControl at h
  split at h
  · next hs =>
    split at h
    · cases h
    · cases h
    · next fs1' og' t1 heq =>
      obtain ⟨hfs1', hw, ⟨c, hcg, hog'⟩, ht1⟩ := acpi_set_governor_inv heq
      subst hog'
      subst hs
      simp only [Option.isNone_some, Bool.false_eq_true, if_false] at h
      rcases hq : acpi_set_freq fs1' req with ⟨fs2, of2, t2, e2⟩
      rw [hq] at h
      simp only [if_true, ProcOut.ok.injEq, Prod.mk.injEq] at h
      obtain ⟨h1, h2, h3, h4, h5, h6⟩ := h
      subst h1; subst h2; subst h3
      obtain ⟨hnone, hsome⟩ := acpi_set_freq_inv hq
      refine ⟨?_, ?_, ?_⟩
      · intro hcontra
        cases hcontra
      · intro g hgq
        rcases of2 with _ | v
        · rw [hnone rfl, hfs1']
          exact ⟨rfl, hw⟩
        · obtain ⟨hfs2, _, _, _, _⟩ := hsome v rfl
          rw [hfs2, hfs1']
          exact ⟨rfl, hw⟩
      · intro v hv
        obtain ⟨hfs2, hsw, _, _, _⟩ := hsome v hv
        rw [hfs2]
        exact ⟨rfl, hsw⟩
  · next hs =>
    simp only [ProcOut.ok.injEq, Prod.mk.injEq] at h
    obtain ⟨h1, h2, h3, h4, h5, h6⟩ := h
    subst h1; subst h2; subst h3
    exact ⟨fun _ => ⟨rfl, rfl⟩, by simp, by simp⟩

/-- The exact list of restoring writes the teardown must perform:
one `writeSpeed` per captured frequency, then one `writeGov` per
captured governor. -/
def restoreWrites (of : Option Nat) (og : Option (List Char)) : List FsAction :=
  (match of with | some v => [FsAction.writeSpeed v] | none => []) ++
  (match og with | some g => [FsAction.writeGov g] | none => [])

theorem teardownPhase_spec (fs : FS) (of : Option Nat) (og : Option (List Char)) (req : Nat)
    (hreq : req ≤ U32_MAX)
    (hof : ∀ v, of = some v →
      fs.scaling_setspeed = Except.ok (natChars req) ∧ fs.setspeedWritable = true)
    (hog : ∀ g, og = some g →
      fs.scaling_governor = Except.ok ("userspace".toList) ∧ fs.governorWritable = true) :
    ∃ fs2 t e, teardownPhase fs of og = ProcOut.ok (fs2, t, e) ∧
      t.filter isWriteAction = restoreWrites of og ∧
      (∀ g, og = some g → fs2.scaling_governor = Except.ok g) ∧
      (∀ v, of = some v → fs2.scaling_setspeed = Except.ok (natChars v)) ∧
      (og = none → of = none → fs2 = fs) := by
  rcases of with _ | v
  · rcases og with _ | g
    · exact ⟨fs, [], [], rfl, rfl, by simp, by simp, fun _ _ => rfl⟩
    · obtain ⟨hgc, hgw⟩ := hog g rfl
      refine ⟨{ fs with scaling_governor := Except.ok g },
          [] ++ [FsAction.readGov, FsAction.writeGov g], [], ?_, ?_, ?_, ?_, ?_⟩
      · unfold teardownPhase
        simp only [acpi_set_governor_run hgc hgw]
      · simp [isWriteAction, restoreWrites]
      · intro g' hg'
        cases hg'
        rfl
      · simp
      · simp
  · obtain ⟨hsc, hsw⟩ := hof v rfl
    have hrun := acpi_set_freq_run v hsc (parseU32_trim_natChars req hreq) hsw
    rcases og with _ | g
    · refine ⟨{ fs with scaling_setspeed := Except.ok (natChars v) },
          [FsAction.readSpeed, FsAction.writeSpeed v], [], ?_, ?_, ?_, ?_, ?_⟩
      · unfold teardownPhase
        simp only [hrun]
      · simp [isWriteAction, restoreWrites]
      · simp
      · intro v' hv'
        cases hv'
        rfl
      · simp
    · obtain ⟨hgc, hgw⟩ := hog g rfl
      have hgc' : ({ fs with scaling_setspeed := Except.ok (natChars v) } : FS).scaling_governor =
          Except.ok ("userspace".toList) := hgc
      have hgw' : ({ fs with scaling_setspeed := Except.ok (natChars v) } : FS).governorWritable =
          true := hgw
      refine ⟨{ { fs with scaling_setspeed := Except.ok (natChars v) } with
            scaling_governor := Except.ok g },
          [FsAction.readSpeed, FsAction.writeSpeed v] ++
            [FsAction.readGov, FsAction.writeGov g], [], ?_, ?_, ?_, ?_, ?_⟩
      · unfold teardownPhase
        simp only [hrun, acpi_set_governor_run hgc' hgw']
      · simp [isWriteAction, restoreWrites]
      · intro g' hg'
        cases hg'
        rfl
      · intro v' hv'
        cases hv'
        rfl
      · simp

theorem reqFreq_le_max (m : Nat) : (m * 1000) % U32_MOD ≤ U32_MAX := by
  have h := Nat.mod_lt (m * 1000) (y := U32_MOD) (by decide)
  simp only [U32_MOD, U32_MAX] at h ⊢
  omega

/-- C2: on every normally-exiting run (whatever path: full benchmark,
soft setup failure, or bind failure), the teardown performs exactly one
restoring write per captured value and nothing else, with the saved
frequency written back before the saved governor (reverse of the
acquisition order governor-then-frequency); a frequency can only have
been captured if the governor was (so "reverse order" is meaningful),
and each captured value is indeed what the respective file holds when
the process exits. -/
theorem C2_teardown_restore_order (core freqMHz : Nat) (fs : FS) (b : Bool) (r : RunResult)
    (h : mainRun core freqMHz fs b = ProcOut.ok r) :
    r.teardownTrace.filter isWriteAction = restoreWrites r.old_cpufreq r.old_governor ∧
    (r.old_governor = none → r.old_cpufreq = none) ∧
    (∀ g, r.old_governor = some g → r.fs.scaling_governor = Except.ok g) ∧
    (∀ v, r.old_cpufreq = some v → r.fs.scaling_setspeed = Except.ok (natChars v)) := by
  simp only [mainRun] at h
  split at h
  · cases h
  · cases h
  · next driverOk tA heqA =>
    split at h
    · cases h
    · cases h
    · next freqOk diags uf tB heqB =>
      split at h
      · cases h
      · cases h
      · next fs1 og of succ5 tC eC heqC =>
        split at h
        · cases h
        · cases h
        · next fs2 tE eE heqE =>
          injection h with h'
          subst h'
          obtain ⟨hinv1, hinv2, hinv3⟩ := mainSetupControl_inv heqC
          obtain ⟨fs2', t', e', hEq, hfilter, hgov, hspeed, _⟩ :=
            teardownPhase_spec fs1 of og ((freqMHz * 1000) % U32_MOD)
              (reqFreq_le_max freqMHz) hinv3 hinv2
          rw [heqE] at hEq
          simp only [ProcOut.ok.injEq, Prod.mk.injEq] at hEq
          obtain ⟨hfs2, ht, he⟩ := hEq
          subst hfs2; subst ht
          exact ⟨hfilter, fun hn => (hinv1 hn).2, hgov, hspeed⟩

/-- A healthy sysfs state: core present, correct driver, both control
files readable and writable, requested 800 MHz the smallest available
frequency. -/
def fsHealthy : FS :=
  { topologyExists := true
    scaling_driver := Except.ok ("acpi-cpufreq\n".toList)
    scaling_governor := Except.ok ("performance\n".toList)
    governorWritable := true
    scaling_setspeed := Except.ok ("2000000\n".toList)
    setspeedWritable := true
    scaling_available_frequencies := Except.ok ("800000 1000000 1200000\n".toList) }

/-- The `RunResult` of the healthy full-benchmark run. -/
def runHealthy : RunResult :=
  match mainRun 0 800 fsHealthy true with
  | ProcOut.ok r => r
  | _ => default

/-- Witness for C2 at a concrete full run: the run exits normally and
its teardown writes are exactly the saved frequency then the saved
governor. -/
theorem C2_teardown_restore_order_witness :
    mainRun 0 800 fsHealthy true = ProcOut.ok runHealthy ∧
    runHealthy.teardownTrace.filter isWriteAction =
      [FsAction.writeSpeed 2000000, FsAction.writeGov ("performance".toList)] := by
  have h : mainRun 0 800 fsHealthy true = ProcOut.ok runHealthy := by decide
  have h2 := C2_teardown_restore_order 0 800 fsHealthy true runHealthy h
  exact ⟨h, h2.1.trans (by decide)⟩

theorem gate3_eq_false : ∀ c k f : Bool,
    (c = false ∨ k = false ∨ f = false) → gate3 c k f = false := by decide

theorem probe_failure_run (core freqMHz : Nat) (fs : FS) (b : Bool)
    (d raw : List Char) (freqs : List Nat)
    (hd : fs.scaling_driver = Except.ok d)
    (ha : fs.scaling_available_frequencies = Except.ok raw)
    (hp : parse_freq_list raw = Except.ok freqs)
    (hfail : fs.topologyExists = false ∨
      eqIgnoreAsciiCase (trimChars d) ("acpi-cpufreq".toList) = false ∨
      (cpufreq_scan ((freqMHz * 1000) % U32_MOD) none freqs).1 = false) :
    ∃ r, mainRun core freqMHz fs b = ProcOut.ok r ∧
      r.setup_succ = false ∧ r.old_governor = none ∧ r.old_cpufreq = none ∧
      r.setupTrace = [FsAction.readDriver, FsAction.readAvail] ∧
      r.benchTrace = [] ∧ r.teardownTrace = [] ∧ r.benchRan = false ∧
      r.fs = fs ∧ "Failed to setup the benchmark" ∈ r.stderr := by
  rcases hscan : cpufreq_scan ((freqMHz * 1000) % U32_MOD) none freqs with ⟨freqOk, diags, uf⟩
  have hg : gate3 fs.topologyExists
      (eqIgnoreAsciiCase (trimChars d) ("acpi-cpufreq".toList)) freqOk = false := by
    apply gate3_eq_false
    rcases hfail with h | h | h
    · exact Or.inl h
    · exact Or.inr (Or.inl h)
    · rw [hscan] at h
      exact Or.inr (Or.inr h)
  simp only [mainRun, acpi_avaiable, cpufreq_available, core_available, hd, ha, hp, hscan, hg,
    mainSetupControl, teardownPhase, Bool.false_eq_true, if_false, Bool.not_false, if_true]
  refine ⟨_, rfl, by simp, by simp, by simp, by simp, by simp, by simp, by simp, by simp, by simp⟩

/-- Healthy probes but `scaling_governor` unreadable. -/
def fsGovUnreadable : FS :=
  { topologyExists := true
    scaling_driver := Except.ok ("acpi-cpufreq\n".toList)
    scaling_governor := Except.error ()
    governorWritable := true
    scaling_setspeed := Except.ok ("2000000\n".toList)
    setspeedWritable := true
    scaling_available_frequencies := Except.ok ("800000 1000000 1200000\n".toList) }

/-- Healthy probes, readable governor, but the governor write fails
(e.g. permission denied). -/
def fsGovUnwritable : FS :=
  { topologyExists := true
    scaling_driver := Except.ok ("acpi-cpufreq\n".toList)
    scaling_governor := Except.ok ("performance\n".toList)
    governorWritable := false
    scaling_setspeed := Except.ok ("2000000\n".toList)
    setspeedWritable := true
    scaling_available_frequencies := Except.ok ("800000 1000000 1200000\n".toList) }

/-- C1 (code bug): when reading or writing `scaling_governor` fails,
`acpi_set_governor` does not return `None` — it panics via `.expect`
(main.rs 178/189), so a whole run crashes before any teardown instead
of marking setup failed.  The caller's `old_governor.is_none()` check
(main.rs 56) is dead code: the function can only return `Some` or
panic. -/
theorem C1_set_governor_panics :
    acpi_set_governor fsGovUnreadable ("userspace".toList) =
      ProcOut.fatal "Failed to open scaling_governor" ∧
    acpi_set_governor fsGovUnwritable ("userspace".toList) =
      ProcOut.fatal "Failed to write scaling_governor" ∧
    mainRun 0 800 fsGovUnreadable true = ProcOut.fatal "Failed to open scaling_governor" ∧
    mainRun 0 800 fsGovUnwritable true = ProcOut.fatal "Failed to write scaling_governor" := by
  exact ⟨by decide, by decide, by decide, by decide⟩

/-- Core missing and (as is then typical) its `scaling_driver`
unreadable. -/
def fsNoCore : FS :=
  { topologyExists := false
    scaling_driver := Except.error ()
    scaling_governor := Except.ok ("performance\n".toList)
    governorWritable := true
    scaling_setspeed := Except.ok ("2000000\n".toList)
    setspeedWritable := true
    scaling_available_frequencies := Except.ok ("800000 1000000\n".toList) }

/-- C3 counterexample: after the core-existence check has failed, the
driver-stage operation is still invoked — the gating is
`!acpi_avaiable(..) && setup_succ`, whose left operand runs first — so
with an unreadable `scaling_driver` the run panics instead of merely
consulting the setup flag and proceeding to teardown. -/
theorem C3_counterexample :
    mainRun 0 800 fsNoCore true = ProcOut.fatal "Failed to open scaling_driver" := by decide

/-- C3 as amended: once a prober stage fails, the *state-changing*
steps (governor write, frequency write, bind, benchmarking) are
skipped via the single setup flag and nothing is captured, and the run
still reaches teardown and exits normally — but the remaining prober
operations (scaling_driver read, scaling_available_frequencies read)
are still invoked, which is why their read success must be assumed. -/
theorem C3_gating_amended (core freqMHz : Nat) (fs : FS) (b : Bool)
    (d raw : List Char) (freqs : List Nat)
    (hd : fs.scaling_driver = Except.ok d)
    (ha : fs.scaling_available_frequencies = Except.ok raw)
    (hp : parse_freq_list raw = Except.ok freqs)
    (hfail : fs.topologyExists = false ∨
      eqIgnoreAsciiCase (trimChars d) ("acpi-cpufreq".toList) = false ∨
      (cpufreq_scan ((freqMHz * 1000) % U32_MOD) none freqs).1 = false) :
    ∃ r, mainRun core freqMHz fs b = ProcOut.ok r ∧
      FsAction.readDriver ∈ r.setupTrace ∧ FsAction.readAvail ∈ r.setupTrace ∧
      (r.setupTrace ++ r.benchTrace ++ r.teardownTrace).filter isWriteAction = [] ∧
      r.benchRan = false ∧ r.old_governor = none ∧ r.old_cpufreq = none ∧
      r.setup_succ = false := by
  obtain ⟨r, h0, h1, h2, h3, h4, h5, h6, h7, h8, h9⟩ :=
    probe_failure_run core freqMHz fs b d raw freqs hd ha hp hfail
  refine ⟨r, h0, ?_, ?_, ?_, h7, h2, h3, h1⟩
  · rw [h4]; simp
  · rw [h4]; simp
  · rw [h4, h5, h6]; simp [isWriteAction]

/-- Core missing but all probe files readable: the amended C3
behaviour at a concrete input. -/
def fsNoCoreReadable : FS :=
  { topologyExists := false
    scaling_driver := Except.ok ("acpi-cpufreq\n".toList)
    scaling_governor := Except.ok ("performance\n".toList)
    governorWritable := true
    scaling_setspeed := Except.ok ("2000000\n".toList)
    setspeedWritable := true
    scaling_available_frequencies := Except.ok ("800000 1000000\n".toList) }

/-- Witness for the amended C3 at a concrete input. -/
theorem C3_gating_amended_witness :
    ∃ r, mainRun 5 800 fsNoCoreReadable true = ProcOut.ok r ∧
      FsAction.readDriver ∈ r.setupTrace ∧ FsAction.readAvail ∈ r.setupTrace ∧
      (r.setupTrace ++ r.benchTrace ++ r.teardownTrace).filter isWriteAction = [] ∧
      r.benchRan = false ∧ r.old_governor = none ∧ r.old_cpufreq = none ∧
      r.setup_succ = false :=
  C3_gating_amended 5 800 fsNoCoreReadable true ("acpi-cpufreq\n".toList)
    ("800000 1000000\n".toList) [800000, 1000000] rfl rfl (by decide) (Or.inl rfl)

/-- Second core-missing state (for C7): core 1 absent and its
`scaling_driver` unreadable. -/
def fsNoCore7 : FS :=
  { topologyExists := false
    scaling_driver := Except.error ()
    scaling_governor := Except.ok ("powersave\n".toList)
    governorWritable := true
    scaling_setspeed := Except.ok ("1500000\n".toList)
    setspeedWritable := true
    scaling_available_frequencies := Except.ok ("1000000 1500000\n".toList) }

/-- C7 counterexample: the claim's premise "any earlier prober check
fails" holds (the core-existence check fails), yet the process does
not exit normally after reporting the failure: the always-invoked
driver read panics, because prober stages run unconditionally. -/
theorem C7_counterexample :
    core_available fsNoCore7 1 = false ∧
    mainRun 1 800 fsNoCore7 true = ProcOut.fatal "Failed to open scaling_driver" := by
  exact ⟨rfl, by decide⟩

/-- C7 as amended: provided the two prober reads succeed and the
available-frequency list parses, a run in which the requested
frequency is rejected by the scan (or an earlier prober check fails)
performs no write to `scaling_governor` or `scaling_setspeed`, leaves
the filesystem state untouched, runs no benchmarking, and exits
normally after reporting the setup failure. -/
theorem C7_no_sideeffects_amended (core freqMHz : Nat) (fs : FS) (b : Bool)
    (d raw : List Char) (freqs : List Nat)
    (hd : fs.scaling_driver = Except.ok d)
    (ha : fs.scaling_available_frequencies = Except.ok raw)
    (hp : parse_freq_list raw = Except.ok freqs)
    (hfail : fs.topologyExists = false ∨
      eqIgnoreAsciiCase (trimChars d) ("acpi-cpufreq".toList) = false ∨
      (cpufreq_scan ((freqMHz * 1000) % U32_MOD) none freqs).1 = false) :
    ∃ r, mainRun core freqMHz fs b = ProcOut.ok r ∧
      (r.setupTrace ++ r.benchTrace ++ r.teardownTrace).filter isWriteAction = [] ∧
      r.fs = fs ∧ r.benchTrace = [] ∧ r.benchRan = false ∧
      "Failed to setup the benchmark" ∈ r.stderr := by
  obtain ⟨r, h0, h1, h2, h3, h4, h5, h6, h7, h8, h9⟩ :=
    probe_failure_run core freqMHz fs b d raw freqs hd ha hp hfail
  refine ⟨r, h0, ?_, h8, h5, h7, h9⟩
  rw [h4, h5, h6]
  simp [isWriteAction]

/-- Spec scenario B: requested 800 MHz absent from the available list
entirely. -/
def fsFreqAbsent : FS :=
  { topologyExists := true
    scaling_driver := Except.ok ("acpi-cpufreq\n".toList)
    scaling_governor := Except.ok ("performance\n".toList)
    governorWritable := true
    scaling_setspeed := Except.ok ("1000000\n".toList)
    setspeedWritable := true
    scaling_available_frequencies := Except.ok ("1000000 1200000\n".toList) }

/-- Witness for the amended C7 at the concrete frequency-absent
scenario. -/
theorem C7_no_sideeffects_amended_witness :
    ∃ r, mainRun 0 800 fsFreqAbsent true = ProcOut.ok r ∧
      (r.setupTrace ++ r.benchTrace ++ r.teardownTrace).filter isWriteAction = [] ∧
      r.fs = fsFreqAbsent ∧ r.benchTrace = [] ∧ r.benchRan = false ∧
      "Failed to setup the benchmark" ∈ r.stderr :=
  C7_no_sideeffects_amended 0 800 fsFreqAbsent true ("acpi-cpufreq\n".toList)
    ("1000000 1200000\n".toList) [1000000, 1200000] rfl rfl (by decide)
    (Or.inr (Or.inr (by decide)))

/-- C4: for every sorted sample list of positive length the reported
raw 99th percentile (before unit conversion) is the element at 0-based
index `len * 99 / 100`, and on the synthetic ascending samples
`0..9999` the selected raw value is `9900`. -/
theorem C4_percentile_index :
    (∀ samples : List Nat, List.Sorted (· ≤ ·) samples → 0 < samples.length →
      ∃ hlt : percentile_index samples.length < samples.length,
        percentile99_raw samples =
          some (samples.get ⟨percentile_index samples.length, hlt⟩)) ∧
    percentile99_raw (List.range 10000) = some 9900 := by
  constructor
  · intro samples hs hlen
    have hlt : percentile_index samples.length < samples.length := by
      unfold percentile_index
      rw [Nat.div_lt_iff_lt_mul (by omega : (0:Nat) < 100)]
      omega
    refine ⟨hlt, ?_⟩
    unfold percentile99_raw
    rw [List.getElem?_eq_getElem hlt]
    simp
  · unfold percentile99_raw percentile_index
    rw [List.length_range]
    have hix : 10000 * 99 / 100 = 9900 := by norm_num
    rw [hix, List.getElem?_range (by omega)]

/-- Witness for C4 at the concrete sorted list `[3, 4]` (index
`2 * 99 / 100 = 1`). -/
theorem C4_percentile_index_witness :
    percentile99_raw [3, 4] = some 4 := by
  obtain ⟨hlt, he⟩ := C4_percentile_index.1 [3, 4] (by decide) (by decide)
  exact he.trans rfl

/-- C5: if the requested frequency is the first (smallest) entry of the
parsed available-frequency list, `cpufreq_available` accepts it with no
diagnostic, regardless of the remaining entries. -/
theorem C5_min_frequency_accepted (fs : FS) (raw : List Char) (freq : Nat) (rest : List Nat)
    (hfs : fs.scaling_available_frequencies = Except.ok raw)
    (hp : parse_freq_list raw = Except.ok (freq :: rest))
    (hs : List.Sorted (· ≤ ·) (freq :: rest)) :
    cpufreq_available fs freq = ProcOut.ok ((true, [], false), [FsAction.readAvail]) := by
  simp only [cpufreq_available, hfs, hp]
  simp [cpufreq_scan]

/-- Witness for C5 at the healthy state (800000 is the smallest
entry). -/
theorem C5_min_frequency_accepted_witness :
    cpufreq_available fsHealthy 800000 = ProcOut.ok ((true, [], false), [FsAction.readAvail]) :=
  C5_min_frequency_accepted fsHealthy ("800000 1000000 1200000\n".toList) 800000
    [1000000, 1200000] rfl (by decide) (by decide)

/-- C6: if the requested frequency occurs at a non-first position of
the sorted list and equals its immediate predecessor plus exactly
1000 kHz, `cpufreq_available` rejects it and emits the diagnostic
naming the lower usable frequency. -/
theorem C6_rounding_boundary_rejected (fs : FS) (raw : List Char)
    (pre post : List Nat) (p freq : Nat)
    (hfs : fs.scaling_available_frequencies = Except.ok raw)
    (hp : parse_freq_list raw = Except.ok (pre ++ p :: freq :: post))
    (hs : List.Sorted (· ≤ ·) (pre ++ p :: freq :: post))
    (hpf : freq = p + 1000) :
    cpufreq_available fs freq =
      ProcOut.ok ((false,
        ["The frequency " ++ toString freq ++
          " is not available, using the closest one " ++ toString p], false),
        [FsAction.readAvail]) := by
  subst hpf
  have hmem : ∀ x ∈ pre ++ [p], x ≠ p + 1000 := by
    intro x hx
    rcases List.mem_append.mp hx with hx | hx
    · obtain ⟨-, -, hcross⟩ := List.pairwise_append.mp hs
      have hxp : x ≤ p := hcross x hx p (by simp)
      omega
    · simp only [List.mem_singleton] at hx
      subst hx
      omega
  have hbound : p + 1000 ≤ U32_MAX :=
    parse_freq_list_le_max hp (p + 1000) (by simp)
  have hsub : u32_sub_wrap (p + 1000) 1000 = p := by
    have hplt : p < 4294967296 := by
      unfold U32_MAX at hbound
      omega
    unfold u32_sub_wrap U32_MOD
    omega
  have hd : (decide (p + 1000 < 1000)) = false := decide_eq_false (by omega)
  simp only [cpufreq_available, hfs, hp]
  rw [show pre ++ p :: (p + 1000) :: post = (pre ++ [p]) ++ ((p + 1000) :: post) by simp,
    cpufreq_scan_skip _ _ _ _ hmem, lastOpt_append_singleton]
  simp only [cpufreq_scan, if_pos rfl, hsub, hd]
  simp

/-- List `800000 801000`: the second entry is the first plus exactly
1000 kHz. -/
def fsBoundary : FS :=
  { topologyExists := true
    scaling_driver := Except.ok ("acpi-cpufreq\n".toList)
    scaling_governor := Except.ok ("performance\n".toList)
    governorWritable := true
    scaling_setspeed := Except.ok ("800000\n".toList)
    setspeedWritable := true
    scaling_available_frequencies := Except.ok ("800000 801000\n".toList) }

/-- Witness for C6 at the concrete boundary list. -/
theorem C6_rounding_boundary_rejected_witness :
    cpufreq_available fsBoundary 801000 =
      ProcOut.ok ((false,
        ["The frequency " ++ toString 801000 ++
          " is not available, using the closest one " ++ toString 800000], false),
        [FsAction.readAvail]) :=
  C6_rounding_boundary_rejected fsBoundary ("800000 801000\n".toList) [] [] 800000 801000
    rfl (by decide) (by decide) (by norm_num)

/-- C9: the u32 subtraction `available_freq - 1000` in the scan of
`cpufreq_available` is reached only when the requested frequency is
found at a non-zero index; it never (mathematically) underflows when
every list entry is at least 1000 kHz, and it does underflow whenever
the matched entry is below 1000 kHz at a non-zero index.  The third
component of `cpufreq_scan` records exactly whether an executed
subtraction had `available_freq < 1000`. -/
theorem C9_underflow_guard :
    (∀ (freq : Nat) (freqs : List Nat) (prev : Option Nat),
      (∀ x ∈ freqs, 1000 ≤ x) → (cpufreq_scan freq prev freqs).2.2 = false) ∧
    (∀ (pre post : List Nat) (p freq : Nat), freq < 1000 →
      (∀ x ∈ pre, x ≠ freq) → p ≠ freq →
      (cpufreq_scan freq none (pre ++ p :: freq :: post)).2.2 = true) := by
  constructor
  · intro freq freqs
    induction freqs with
    | nil => intro prev h; rfl
    | cons f rest ih =>
      intro prev h
      by_cases hf : f = freq
      · have hge : 1000 ≤ f := h f (by simp)
        have hd : (decide (f < 1000)) = false := decide_eq_false (by omega)
        rcases prev with _ | q
        · simp [cpufreq_scan, if_pos hf]
        · by_cases hw : u32_sub_wrap f 1000 = q <;>
            simp [cpufreq_scan, if_pos hf, hw, hd]
      · simp only [cpufreq_scan, if_neg hf]
        exact ih (some f) (fun x hx => h x (by simp [hx]))
  · intro pre post p freq hlt hmem hneq
    have hmem' : ∀ x ∈ pre ++ [p], x ≠ freq := by
      intro x hx
      rcases List.mem_append.mp hx with hx | hx
      · exact hmem x hx
      · simp only [List.mem_singleton] at hx
        subst hx
        exact hneq
    rw [show pre ++ p :: freq :: post = (pre ++ [p]) ++ (freq :: post) by simp,
      cpufreq_scan_skip _ _ _ _ hmem', lastOpt_append_singleton]
    have hd : (decide (freq < 1000)) = true := decide_eq_true hlt
    by_cases hw : u32_sub_wrap freq 1000 = p <;>
      simp [cpufreq_scan, hw, hd]

/-- Witness for C9: no underflow on `[1000, 2000]` with request 2000;
underflow on `[500, 900]` with request 900 (match at index 1, entry
below 1000). -/
theorem C9_underflow_guard_witness :
    (cpufreq_scan 2000 none [1000, 2000]).2.2 = false ∧
    (cpufreq_scan 900 none [500, 900]).2.2 = true := by
  constructor
  · exact C9_underflow_guard.1 2000 [1000, 2000] none (by decide)
  · exact C9_underflow_guard.2 [] [] 500 900 (by decide) (by simp) (by decide)

/-- C10: both samplers return exactly `NUM_ITERATIONS = 10000` wrapped
u64 cycle deltas, already sorted non-decreasingly at the point of
return (`Vec::sort` inside the sampler); the reducer
(`percentile99_raw`, `wrappedSum`) performs no sorting of its own. -/
theorem C10_samplers_sorted (micro : Nat) (tsc : Nat → Nat) :
    (hr_sleep_bench micro tsc).length = NUM_ITERATIONS ∧
    List.Sorted (· ≤ ·) (hr_sleep_bench micro tsc) ∧
    (nano_sleep_bench micro tsc).length = NUM_ITERATIONS ∧
    List.Sorted (· ≤ ·) (nano_sleep_bench micro tsc) := by
  have hsort : ∀ l : List Nat, List.Sorted (· ≤ ·) (l.mergeSort (fun a b => a ≤ b)) := by
    intro l
    have h := @List.sorted_mergeSort Nat (fun a b : Nat => decide (a ≤ b))
      (fun a b c hab hbc =>
        decide_eq_true (Nat.le_trans (of_decide_eq_true hab) (of_decide_eq_true hbc)))
      (fun a b => by
        rcases Nat.le_total a b with h | h
        · simp [decide_eq_true h]
        · simp [decide_eq_true h])
      l
    exact h.imp (fun {a b} hab => of_decide_eq_true hab)
  refine ⟨?_, hsort _, ?_, hsort _⟩
  · simp [hr_sleep_bench, NUM_ITERATIONS]
  · simp [nano_sleep_bench, NUM_ITERATIONS]

theorem sum_map_mul (k : Nat) (l : List Nat) :
    (l.map (fun x => k * x)).sum = k * l.sum := by
  induction l with
  | nil => simp
  | cons x xs ih => simp [ih, Nat.mul_add]

/-- A sorted length-10000 sample set with two large entries whose
doubled sum wraps around u64. -/
def cexSamples : List Nat :=
  List.replicate 9998 0 ++ [9223372036854775804, 9223372036854775804]

/-- C8 counterexample: scaling every sample of `cexSamples` (sorted,
length 10000, all entries and all scaled entries valid u64 values) by
k = 2 does not double the reported mean, because the u64 sum wraps:
the original wrapped sum is 2^64 - 8 but the scaled wrapped sum is
2^64 - 16 rather than 2^65 - 16. -/
theorem C8_counterexample :
    List.Sorted (· ≤ ·) cexSamples ∧ cexSamples.length = 10000 ∧
    ¬(reported_mean (cexSamples.map (fun x => (2 * x) % U64_MOD)) 1 =
        (2 : ℚ) * reported_mean cexSamples 1 ∧
      reported_p99 (cexSamples.map (fun x => (2 * x) % U64_MOD)) 1 =
        (reported_p99 cexSamples 1).map (fun q => (2 : ℚ) * q)) := by
  have hs : List.Sorted (· ≤ ·) cexSamples := by
    unfold cexSamples
    rw [List.Sorted, List.pairwise_append]
    refine ⟨?_, ?_, ?_⟩
    · exact List.pairwise_replicate.mpr (Or.inr (le_refl 0))
    · exact List.pairwise_cons.mpr ⟨by simp, by simp⟩
    · intro x hx y hy
      have hx0 : x = 0 := List.eq_of_mem_replicate hx
      subst hx0
      exact Nat.zero_le y
  have hlen : cexSamples.length = 10000 := by
    unfold cexSamples
    rw [List.length_append, List.length_replicate]
    norm_num
  refine ⟨hs, hlen, ?_⟩
  have hmap : cexSamples.map (fun x => (2 * x) % U64_MOD) =
      List.replicate 9998 0 ++ [18446744073709551608, 18446744073709551608] := by
    unfold cexSamples
    rw [List.map_append, List.map_replicate]
    congr 1
  have hsum0 : wrappedSum cexSamples = 18446744073709551608 := by
    rw [wrappedSum_eq]
    unfold cexSamples
    rw [List.sum_append]
    norm_num [List.sum_replicate, U64_MOD]
  have hsum1 : wrappedSum
      (List.replicate 9998 0 ++ [18446744073709551608, 18446744073709551608]) =
      18446744073709551600 := by
    rw [wrappedSum_eq]
    rw [List.sum_append]
    norm_num [List.sum_replicate, U64_MOD]
  rintro ⟨hm, -⟩
  rw [hmap] at hm
  unfold reported_mean at hm
  rw [hsum0, hsum1] at hm
  rw [hlen] at hm
  norm_num at hm

/-- C8 as amended: the reduction is linear provided the scaled sum
does not overflow u64 (`k * sum < 2^64`, which also keeps every scaled
sample representable): scaling every sample by k multiplies the
reported mean and the reported 99th percentile by k, with the
conversion factor held fixed. -/
theorem C8_linearity_amended (samples : List Nat) (k : Nat) (t : ℚ)
    (hk : k * samples.sum < U64_MOD) :
    reported_mean (samples.map (fun x => (k * x) % U64_MOD)) t =
      (k : ℚ) * reported_mean samples t ∧
    reported_p99 (samples.map (fun x => (k * x) % U64_MOD)) t =
      (reported_p99 samples t).map (fun q => (k : ℚ) * q) := by
  have hbound : ∀ x ∈ samples, k * x < U64_MOD := by
    intro x hx
    have hxs : x ≤ samples.sum := List.le_sum_of_mem hx
    exact lt_of_le_of_lt (Nat.mul_le_mul_left k hxs) hk
  have hmap : samples.map (fun x => (k * x) % U64_MOD) = samples.map (fun x => k * x) :=
    List.map_congr_left (fun x hx => Nat.mod_eq_of_lt (hbound x hx))
  constructor
  · rcases Nat.eq_zero_or_pos k with hk0 | hkpos
    · subst hk0
      unfold reported_mean
      rw [hmap, wrappedSum_eq, sum_map_mul]
      simp
    · have hsum_lt : samples.sum < U64_MOD :=
        lt_of_le_of_lt (Nat.le_mul_of_pos_left _ hkpos) hk
      unfold reported_mean wrappedSum
      rw [hmap]
      rw [show (samples.map fun x => k * x).foldl (fun a x => (a + x) % U64_MOD) 0 =
        wrappedSum (samples.map fun x => k * x) from rfl]
      rw [show samples.foldl (fun a x => (a + x) % U64_MOD) 0 = wrappedSum samples from rfl]
      rw [wrappedSum_eq, wrappedSum_eq, sum_map_mul, Nat.mod_eq_of_lt hk,
        Nat.mod_eq_of_lt hsum_lt, List.length_map]
      push_cast
      rw [mul_div_assoc]
  · unfold reported_p99 percentile99_raw
    rw [hmap, List.length_map, List.getElem?_map]
    rcases samples[percentile_index samples.length]? with _ | v
    · simp
    · simp only [Option.map_some', Option.some.injEq]
      push_cast
      rw [mul_div_assoc]

/-- Witness for the amended C8 at samples `[1,2,3,4]`, k = 3, unit
conversion factor. -/
theorem C8_linearity_amended_witness :
    3 * ([1, 2, 3, 4] : List Nat).sum < U64_MOD ∧
    reported_mean (([1, 2, 3, 4] : List Nat).map (fun x => (3 * x) % U64_MOD)) 1 =
      (3 : ℚ) * reported_mean [1, 2, 3, 4] 1 :=
  ⟨by decide, (C8_linearity_amended [1, 2, 3, 4] 3 1 (by decide)).1⟩
